import Mathlib

/-!
Verification of the tcpRaw TPX3 streaming pipeline.

The definitions below are shallow embeddings of the C++ sources:
`src/cpp/include/tpx3_decoder.h`, `src/cpp/include/timestamp_extension.h`,
`src/cpp/src/tpx3_decoder.cpp`, `src/unnamed/part_006` (the frame parser
`process_raw_data`, `process_packet` and the `DecodeDispatcher`) and
`src/unnamed/part_008` (`PacketReorderBuffer`).  Machine integers are
modelled as `Nat` with explicit wrap-around (`% 2 ^ 64`) where the C++
code relies on unsigned-overflow semantics.
-/

namespace TcpRaw

/-- 2^64, the modulus of C++ `uint64_t` arithmetic. -/
def U64 : Nat := 2 ^ 64

/-- Wrapping 64-bit addition. -/
def add64 (a b : Nat) : Nat := (a + b) % U64

/-- Wrapping 64-bit subtraction (operands reduced mod 2^64 first,
exactly as C++ `uint64_t` subtraction behaves). -/
def sub64 (a b : Nat) : Nat := (a % U64 + U64 - b % U64) % U64

/-- `get_bits(data, high, low)` from `tpx3_decoder.h`: inclusive bit range. -/
def get_bits (data : Nat) (high low : Nat) : Nat :=
  (data >>> low) &&& ((1 <<< (high - low + 1)) - 1)

/-- `TPX3_MAGIC` from `tpx3_packets.h`: ASCII "TPX3" little-endian. -/
def TPX3_MAGIC : Nat := 0x33585054

/-- `pixaddr_to_xy` from `tpx3_decoder.h` (Table 6.6 address decode). -/
def pixaddr_to_xy (pixaddr : Nat) : Nat × Nat :=
  let dcol := (pixaddr >>> 9) &&& 0x7F
  let spix := (pixaddr >>> 3) &&& 0x3F
  let pix := pixaddr &&& 0x7
  let x := dcol * 2 + (if pix ≥ 4 then 1 else 0)
  let y := spix * 4 + (pix &&& 0x3)
  (x, y)

/-- The inverse pixel-address mapping stated by the spec:
`pixaddr = ((x/2) << 9) | ((y/4) << 3) | (4*(x&1) + (y&3))`. -/
def xy_to_pixaddr (x y : Nat) : Nat :=
  ((x / 2) <<< 9) ||| ((y / 4) <<< 3) ||| (4 * (x &&& 1) + (y &&& 3))

/-- `extend_timestamp` from `timestamp_extension.h`:
`bit_mask = (1 << n) - 1; delta_t = (timestamp - minimum) & bit_mask;
return minimum + delta_t`, all on `uint64_t`. -/
def extend_timestamp (timestamp minimum_timestamp n_bits : Nat) : Nat :=
  add64 minimum_timestamp
    ((sub64 timestamp minimum_timestamp) &&& (sub64 ((1 <<< n_bits) % U64) 1))

/-- Decode failures thrown by `tpx3_decoder.cpp` (`std::runtime_error`).
`fractionalOutOfRange` is the throw whose message contains "fractional"
("Invalid fractional TDC part"), which `process_packet` tests for when
incrementing the fractional-error counter. -/
inductive DecodeError
  | fractionalOutOfRange
  | invalidPixelType
deriving DecidableEq, Repr

/-- `PixelHit` from `tpx3_packets.h` (integer fields only). -/
structure PixelHit where
  x : Nat
  y : Nat
  toa_ns : Nat
  tot_ns : Nat
  chip_index : Nat
  is_count_fb : Bool
deriving DecidableEq, Repr

/-- `TDCEvent` from `tpx3_packets.h`. -/
structure TDCEvent where
  type : Nat
  trigger_count : Nat
  timestamp_ns : Nat
  fine_timestamp : Nat
deriving DecidableEq, Repr

/-- TDC event type constants from `tpx3_packets.h`. -/
def TDC1_RISE : Nat := 0xf
def TDC1_FALL : Nat := 0xa
def TDC2_RISE : Nat := 0xe
def TDC2_FALL : Nat := 0xb

/-- `decode_pixel_data_standard` from `tpx3_decoder.cpp`. -/
def decode_pixel_data_standard (data chip_index : Nat) : PixelHit :=
  let pixaddr := get_bits data 59 44
  let xy := pixaddr_to_xy pixaddr
  let toa := get_bits data 43 30
  let tot := get_bits data 29 20
  let ftoa := get_bits data 19 16
  let spidr_time := get_bits data 15 0
  { x := xy.1, y := xy.2
    toa_ns := sub64 (((spidr_time <<< 14) + toa) <<< 4) ftoa
    tot_ns := tot * 25
    chip_index := chip_index
    is_count_fb := false }

/-- `decode_pixel_data_count_fb` from `tpx3_decoder.cpp`. -/
def decode_pixel_data_count_fb (data chip_index : Nat) : PixelHit :=
  let pixaddr := get_bits data 59 44
  let xy := pixaddr_to_xy pixaddr
  let integrated_tot := get_bits data 43 30
  let event_count := get_bits data 29 20
  let spidr_time := get_bits data 15 0
  { x := xy.1, y := xy.2
    toa_ns := ((spidr_time <<< 14) + event_count) <<< 4
    tot_ns := integrated_tot * 25
    chip_index := chip_index
    is_count_fb := true }

/-- `decode_pixel_data` from `tpx3_decoder.cpp`: dispatch on the top
nibble, throwing for any non-pixel type. -/
def decode_pixel_data (data chip_index : Nat) : Except DecodeError PixelHit :=
  let packet_type := (data >>> 60) &&& 0xF
  if packet_type = 0xa then .ok (decode_pixel_data_count_fb data chip_index)
  else if packet_type = 0xb then .ok (decode_pixel_data_standard data chip_index)
  else .error .invalidPixelType

/-- `decode_tdc_data` from `tpx3_decoder.cpp`: fine value 0 is coerced
to 1 (old-firmware quirk); fine values above 12 throw the
fractional-out-of-range error. -/
def decode_tdc_data (data : Nat) : Except DecodeError TDCEvent :=
  let event_type := get_bits data 59 56
  let trigger_count := get_bits data 55 44
  let tdc_coarse := get_bits data 43 9
  let fract := get_bits data 8 5
  if fract = 0 then
    .ok { type := event_type, trigger_count := trigger_count
          timestamp_ns := (tdc_coarse <<< 1) ||| ((1 - 1) / 6), fine_timestamp := 1 }
  else if fract > 12 then
    .error .fractionalOutOfRange
  else
    .ok { type := event_type, trigger_count := trigger_count
          timestamp_ns := (tdc_coarse <<< 1) ||| ((fract - 1) / 6), fine_timestamp := fract }

/-- `decode_spidr_packet_id` from `tpx3_decoder.cpp`: requires top byte
`0x50`; yields `bits[47..0]`. -/
def decode_spidr_packet_id (data : Nat) : Option Nat :=
  if data >>> 56 ≠ 0x50 then none
  else some (get_bits data 47 0)

/-- `SpidrControl` from `tpx3_packets.h`. -/
structure SpidrControl where
  command : Nat
  timestamp_ns : Nat
deriving DecidableEq, Repr

/-- SPIDR control commands from `tpx3_packets.h`. -/
def SPIDR_SHUTTER_OPEN : Nat := 0xf
def SPIDR_SHUTTER_CLOSE : Nat := 0xa
def SPIDR_HEARTBEAT : Nat := 0xc

/-- `decode_spidr_control` from `tpx3_decoder.cpp`: requires top nibble
`0x5`; accepts commands `{0xF, 0xA, 0xC}`; stores
`get_bits(data, 45, 12) * 25` in the timestamp field. -/
def decode_spidr_control (data : Nat) : Option SpidrControl :=
  if data >>> 60 ≠ 0x5 then none
  else
    let cmd := get_bits data 59 56
    if cmd = SPIDR_SHUTTER_OPEN ∨ cmd = SPIDR_SHUTTER_CLOSE ∨ cmd = SPIDR_HEARTBEAT then
      some { command := cmd, timestamp_ns := get_bits data 45 12 * 25 }
    else none

/-- TPX3 control commands from `tpx3_packets.h`. -/
def TPX3_END_SEQUENTIAL : Nat := 0xa0
def TPX3_END_DATA_DRIVEN : Nat := 0xb0

/-- `decode_tpx3_control` from `tpx3_decoder.cpp`. -/
def decode_tpx3_control (data : Nat) : Option Nat :=
  if data >>> 56 ≠ 0x71 then none
  else
    let control_cmd := get_bits data 55 48
    if control_cmd = TPX3_END_SEQUENTIAL ∨ control_cmd = TPX3_END_DATA_DRIVEN then
      some control_cmd
    else none

/-- `ExtraTimestamp` from `tpx3_packets.h`. -/
structure ExtraTimestamp where
  is_tpx3 : Bool
  error_flag : Bool
  overflow_flag : Bool
  timestamp_ns : Nat
deriving DecidableEq, Repr

/-- `decode_extra_timestamp` from `tpx3_decoder.cpp`. -/
def decode_extra_timestamp (data : Nat) : ExtraTimestamp :=
  { is_tpx3 := get_bits data 63 56 = 0x51
    error_flag := get_bits data 55 55 ≠ 0
    overflow_flag := get_bits data 54 54 ≠ 0
    timestamp_ns := get_bits data 53 0 }

/-! ## Packet reorder buffer (`src/unnamed/part_008`) -/

/-- `OutOfOrderPacket` from `packet_reorder_buffer.h`. -/
structure OutOfOrderPacket where
  word : Nat
  packet_id : Nat
  chunk_id : Nat
deriving DecidableEq, Repr

/-- State of a `PacketReorderBuffer`: the `std::unordered_map` is
modelled as an association list keyed by packet id (one entry per key),
together with the configuration and statistics members. -/
structure ReorderBuffer where
  buffer : List (Nat × OutOfOrderPacket)
  max_buffer_size : Nat
  chunk_aware : Bool
  next_expected_id : Nat
  oldest_allowed_id : Nat
  current_chunk_id : Nat
  first_packet_seen : Bool
  packets_reordered : Nat
  packets_processed_immediately : Nat
  max_reorder_distance : Nat
  buffer_overflows : Nat
  packets_dropped_too_old : Nat
  total_packets : Nat
deriving DecidableEq, Repr

/-- The constructor `PacketReorderBuffer(max_buffer_size, chunk_aware)`. -/
def ReorderBuffer.init (max_buffer_size : Nat) (chunk_aware : Bool) : ReorderBuffer :=
  { buffer := [], max_buffer_size := max_buffer_size, chunk_aware := chunk_aware
    next_expected_id := 0, oldest_allowed_id := 0, current_chunk_id := 0
    first_packet_seen := false, packets_reordered := 0
    packets_processed_immediately := 0, max_reorder_distance := 0
    buffer_overflows := 0, packets_dropped_too_old := 0, total_packets := 0 }

/-- `buffer_.find(k)` on the association list. -/
def mapFind? (l : List (Nat × OutOfOrderPacket)) (k : Nat) : Option OutOfOrderPacket :=
  match l with
  | [] => none
  | e :: rest => if e.1 = k then some e.2 else mapFind? rest k

/-- `buffer_.erase(k)` on the association list. -/
def mapErase (l : List (Nat × OutOfOrderPacket)) (k : Nat) : List (Nat × OutOfOrderPacket) :=
  l.filter (fun e => e.1 ≠ k)

/-- `buffer_[k] = v`: replace the entry if the key is present, insert
otherwise (`std::unordered_map::operator[]` assignment). -/
def mapInsert (l : List (Nat × OutOfOrderPacket)) (k : Nat) (v : OutOfOrderPacket) :
    List (Nat × OutOfOrderPacket) :=
  if l.any (fun e => e.1 = k) then
    l.map (fun e => if e.1 = k then (k, v) else e)
  else
    l ++ [(k, v)]

/-- Ascending insertion into a sorted list (helper for `flush`'s
`std::sort` over the extracted packet ids). -/
def insertSorted (x : Nat) : List Nat → List Nat
  | [] => [x]
  | y :: ys => if x ≤ y then x :: y :: ys else y :: insertSorted x ys

/-- Sort a list of packet ids ascending (`std::sort`). -/
def sortNat : List Nat → List Nat
  | [] => []
  | x :: xs => insertSorted x (sortNat xs)

/-- `updateOldestAllowed` from `part_008`. -/
def ReorderBuffer.updateOldestAllowed (rb : ReorderBuffer) : ReorderBuffer :=
  if rb.next_expected_id ≥ rb.max_buffer_size then
    { rb with oldest_allowed_id := rb.next_expected_id - rb.max_buffer_size }
  else
    { rb with oldest_allowed_id := 0 }

/-- `releaseConsecutivePackets` from `part_008`: repeatedly pop
`next_expected_id` from the buffer and hand it to the callback.  The
loop removes one buffer entry per iteration, so fuel
`rb.buffer.length` at the call site makes the model total while
matching the C++ loop exactly.  Returns the new state and the packets
passed to the callback, in callback order. -/
def releaseConsecutive : Nat → ReorderBuffer → List OutOfOrderPacket →
    ReorderBuffer × List OutOfOrderPacket
  | 0, rb, out => (rb, out)
  | fuel + 1, rb, out =>
    match mapFind? rb.buffer rb.next_expected_id with
    | none => (rb, out)
    | some pkt =>
      let rb1 := { rb with buffer := mapErase rb.buffer rb.next_expected_id
                           next_expected_id := rb.next_expected_id + 1 }
      releaseConsecutive fuel rb1.updateOldestAllowed (out ++ [pkt])

/-- `flush` from `part_008`: on an empty buffer it returns at once
(state untouched); otherwise it releases every buffered packet in
ascending id order, clears the buffer and resets the sequencing state. -/
def ReorderBuffer.flush (rb : ReorderBuffer) : ReorderBuffer × List OutOfOrderPacket :=
  if rb.buffer.isEmpty then (rb, [])
  else
    let ids := sortNat (rb.buffer.map (fun e => e.1))
    let out := ids.filterMap (mapFind? rb.buffer)
    ({ rb with buffer := [], first_packet_seen := false
               next_expected_id := 0, oldest_allowed_id := 0 }, out)

/-- `resetForNewChunk` from `part_008`: the buffer is CLEARED, not
flushed — buffered packets are discarded without any callback. -/
def ReorderBuffer.resetForNewChunk (rb : ReorderBuffer) (new_chunk_id : Nat) : ReorderBuffer :=
  { rb with buffer := []
            current_chunk_id := new_chunk_id
            first_packet_seen := false
            next_expected_id := 0
            oldest_allowed_id := 0 }

/-- The fast path of `processPacket` (`part_008` lines 27-42): the
packet is released immediately through the callback. -/
def ReorderBuffer.handleInOrder (rb : ReorderBuffer) (word packet_id chunk_id : Nat) :
    ReorderBuffer × List OutOfOrderPacket × Bool :=
  let rb1 :=
    if rb.first_packet_seen = false then
      { rb with first_packet_seen := true
                next_expected_id := packet_id + 1
                oldest_allowed_id :=
                  if packet_id ≥ rb.max_buffer_size then packet_id - rb.max_buffer_size
                  else 0 }
    else
      ({ rb with next_expected_id := rb.next_expected_id + 1 }).updateOldestAllowed
  ({ rb1 with packets_processed_immediately := rb1.packets_processed_immediately + 1 },
   [⟨word, packet_id, chunk_id⟩], true)

/-- The buffer-capacity check shared by the ahead and late branches of
`processPacket` (`part_008` lines 59-73 and 83-96).  On overflow the
ahead branch releases the packet immediately (`releaseOnOverflow`),
while the late branch drops it. -/
def ReorderBuffer.tryBuffer (rb1 : ReorderBuffer) (word packet_id chunk_id : Nat)
    (releaseOnOverflow : Bool) : ReorderBuffer × List OutOfOrderPacket × Bool :=
  if rb1.buffer.length ≥ rb1.max_buffer_size then
    ({ rb1 with buffer_overflows := rb1.buffer_overflows + 1 },
     if releaseOnOverflow then [⟨word, packet_id, chunk_id⟩] else [], false)
  else
    let rb2 := { rb1 with buffer := mapInsert rb1.buffer packet_id ⟨word, packet_id, chunk_id⟩
                          packets_reordered := rb1.packets_reordered + 1 }
    let rel := releaseConsecutive rb2.buffer.length rb2 []
    (rel.1, rel.2, false)

/-- The ahead-of-expected branch of `processPacket` (`part_008` lines
52-74): record the reorder distance, then buffer (or, on overflow,
release immediately). -/
def ReorderBuffer.bufferAhead (rb : ReorderBuffer) (word packet_id chunk_id : Nat) :
    ReorderBuffer × List OutOfOrderPacket × Bool :=
  let distance := packet_id - rb.next_expected_id
  let rb1 :=
    if distance > rb.max_reorder_distance then { rb with max_reorder_distance := distance }
    else rb
  rb1.tryBuffer word packet_id chunk_id true

/-- The late-arrival branch of `processPacket` (`part_008` lines
77-97): the mirrored distance, and a full buffer DROPS the packet. -/
def ReorderBuffer.bufferLate (rb : ReorderBuffer) (word packet_id chunk_id : Nat) :
    ReorderBuffer × List OutOfOrderPacket × Bool :=
  let distance := rb.next_expected_id - packet_id - 1
  let rb1 :=
    if distance > rb.max_reorder_distance then { rb with max_reorder_distance := distance }
    else rb
  rb1.tryBuffer word packet_id chunk_id false

/-- `processPacket` after the chunk-aware boundary block (`part_008`
lines 26-101). -/
def ReorderBuffer.processAfterBoundary (rb : ReorderBuffer) (word packet_id chunk_id : Nat) :
    ReorderBuffer × List OutOfOrderPacket × Bool :=
  if rb.first_packet_seen = false ∨ packet_id = rb.next_expected_id then
    rb.handleInOrder word packet_id chunk_id
  else if rb.first_packet_seen = true ∧ packet_id < rb.oldest_allowed_id then
    ({ rb with packets_dropped_too_old := rb.packets_dropped_too_old + 1 }, [], false)
  else if packet_id > rb.next_expected_id then
    rb.bufferAhead word packet_id chunk_id
  else if packet_id < rb.next_expected_id ∧ packet_id ≥ rb.oldest_allowed_id then
    rb.bufferLate word packet_id chunk_id
  else
    (rb, [⟨word, packet_id, chunk_id⟩], false)

/-- `processPacket` from `part_008`.  Returns the new state, the
packets handed to the callback (in callback order) and the C++ return
value.  On a chunk boundary the flush callbacks fire first. -/
def ReorderBuffer.processPacket (rb0 : ReorderBuffer) (word packet_id chunk_id : Nat) :
    ReorderBuffer × List OutOfOrderPacket × Bool :=
  let rb := { rb0 with total_packets := rb0.total_packets + 1 }
  if rb.chunk_aware ∧ chunk_id ≠ rb.current_chunk_id ∧ chunk_id > 0 then
    let fl := rb.flush
    let r := (fl.1.resetForNewChunk chunk_id).processAfterBoundary word packet_id chunk_id
    (r.1, fl.2 ++ r.2.1, r.2.2)
  else
    rb.processAfterBoundary word packet_id chunk_id

/-- One externally-visible operation on the reorder buffer. -/
inductive RBOp
  | submit (word packet_id chunk_id : Nat)
  | flushOp
  | resetOp (chunk : Nat)
deriving DecidableEq, Repr

/-- Run one operation, returning the new state and released packets. -/
def runRBOp (rb : ReorderBuffer) : RBOp → ReorderBuffer × List OutOfOrderPacket
  | .submit w id c =>
    let r := rb.processPacket w id c
    (r.1, r.2.1)
  | .flushOp => rb.flush
  | .resetOp c => (rb.resetForNewChunk c, [])

/-- Run a sequence of operations, concatenating all released packets. -/
def runRBOps (rb : ReorderBuffer) : List RBOp → ReorderBuffer × List OutOfOrderPacket
  | [] => (rb, [])
  | op :: ops =>
    let r := runRBOp rb op
    let rest := runRBOps r.1 ops
    (rest.1, r.2 ++ rest.2)

/-- Submit a list of packet ids (word := id) within chunk 1. -/
def submitIds (rb : ReorderBuffer) (ids : List Nat) : ReorderBuffer × List OutOfOrderPacket :=
  runRBOps rb (ids.map (fun id => RBOp.submit id id 1))

/-! ## Statistics aggregator and packet routing (`src/unnamed/part_006`,
`src/cpp/src/hit_processor.cpp`) -/

/-- `ChunkMetadata` from `tpx3_packets.h`. -/
structure ChunkMetadata where
  packet_gen_time_ns : Nat := 0
  min_timestamp_ns : Nat := 0
  max_timestamp_ns : Nat := 0
  has_extra_packets : Bool := false
deriving DecidableEq, Repr

/-- The `HitProcessor` statistics tracked by this development: the
exact counters of `hit_processor.cpp` that the claims mention.
Wall-clock rate bookkeeping, the per-label byte map, the per-chip
arrays (modelled separately for the worker shards) and the recent-hit
ring are outside the scope of the claims and not carried here. -/
structure ProcStats where
  total_hits : Nat := 0
  total_tdc_events : Nat := 0
  total_tdc1_events : Nat := 0
  total_tdc2_events : Nat := 0
  total_decode_errors : Nat := 0
  total_fractional_errors : Nat := 0
  total_unknown_packets : Nat := 0
  total_chunks : Nat := 0
  total_bytes_accounted : Nat := 0
  started_mid_stream : Bool := false
  total_reordered_packets : Nat := 0
  reorder_max_distance : Nat := 0
  reorder_buffer_overflows : Nat := 0
  reorder_packets_dropped_too_old : Nat := 0
deriving DecidableEq, Repr

/-- `HitProcessor::addPacketBytes` (`hit_processor.cpp` lines
137-140), dropping the per-label map entry. -/
def ProcStats.addPacketBytes (st : ProcStats) (bytes : Nat) : ProcStats :=
  { st with total_bytes_accounted := st.total_bytes_accounted + bytes }

/-- `HitProcessor::addHit`: `total_hits++` (earliest/latest tick and
rate-throttle bookkeeping not carried). -/
def ProcStats.addHit (st : ProcStats) (_hit : PixelHit) : ProcStats :=
  { st with total_hits := st.total_hits + 1 }

/-- `HitProcessor::addTdcEvent` (`hit_processor.cpp` lines 90-120):
`total_tdc_events++`, then TDC1/TDC2 tallies by event type. -/
def ProcStats.addTdcEvent (st : ProcStats) (tdc : TDCEvent) (_chip_index : Nat) : ProcStats :=
  let st := { st with total_tdc_events := st.total_tdc_events + 1 }
  let st :=
    if tdc.type = TDC1_RISE ∨ tdc.type = TDC1_FALL then
      { st with total_tdc1_events := st.total_tdc1_events + 1 }
    else st
  if tdc.type = TDC2_RISE ∨ tdc.type = TDC2_FALL then
    { st with total_tdc2_events := st.total_tdc2_events + 1 }
  else st

/-- Packet type constants from `tpx3_packets.h` (full-byte types). -/
def GLOBAL_TIME_LOW : Nat := 0x44
def GLOBAL_TIME_HIGH : Nat := 0x45
def EXTRA_TIMESTAMP : Nat := 0x51
def EXTRA_TIMESTAMP_MPX3 : Nat := 0x21
def SPIDR_PACKET_ID : Nat := 0x50
def TPX3_CONTROL : Nat := 0x71

/-- `process_packet` from `part_006` lines 458-586: the inline decode
path, with its effect on the tracked statistics.  Every branch adds 8
accounted bytes when accounting is enabled.  The C++ TDC handler
increments the fractional-error counter when the thrown message
contains "fractional", which is exactly the `fractionalOutOfRange`
throw of `decode_tdc_data`. -/
def process_packet (word chip_index : Nat) (chunk_meta : ChunkMetadata)
    (enable_accounting : Bool) (st : ProcStats) : ProcStats :=
  let full_type := (word >>> 56) &&& 0xFF
  if full_type = SPIDR_PACKET_ID then
    if enable_accounting then st.addPacketBytes 8 else st
  else if full_type = TPX3_CONTROL then
    if enable_accounting then st.addPacketBytes 8 else st
  else if full_type = EXTRA_TIMESTAMP ∨ full_type = EXTRA_TIMESTAMP_MPX3 then
    if enable_accounting then st.addPacketBytes 8 else st
  else if full_type = GLOBAL_TIME_LOW ∨ full_type = GLOBAL_TIME_HIGH then
    if enable_accounting then st.addPacketBytes 8 else st
  else
    let packet_type := (word >>> 60) &&& 0xF
    if packet_type = 0xa ∨ packet_type = 0xb then
      let st := if enable_accounting then st.addPacketBytes 8 else st
      match decode_pixel_data word chip_index with
      | .ok hit =>
        let hit :=
          if chunk_meta.has_extra_packets then
            { hit with toa_ns :=
                extend_timestamp (hit.toa_ns &&& 0x3FFFFFFF) chunk_meta.min_timestamp_ns 30 }
          else hit
        st.addHit hit
      | .error _ => { st with total_decode_errors := st.total_decode_errors + 1 }
    else if packet_type = 0x6 then
      let st := if enable_accounting then st.addPacketBytes 8 else st
      match decode_tdc_data word with
      | .ok tdc => st.addTdcEvent tdc chip_index
      | .error e =>
        let st := { st with total_decode_errors := st.total_decode_errors + 1 }
        if e = .fractionalOutOfRange then
          { st with total_fractional_errors := st.total_fractional_errors + 1 }
        else st
    else if packet_type = 0x5 then
      let st := if enable_accounting then st.addPacketBytes 8 else st
      match decode_spidr_control word with
      | some _ => { st with total_chunks := st.total_chunks + 1 }
      | none => st
    else
      if enable_accounting then
        let st := st.addPacketBytes 8
        { st with total_unknown_packets := st.total_unknown_packets + 1 }
      else st

/-- `DecodeDispatcher::processDecoded` (`part_006` lines 380-444) as
seen by the aggregator: successfully decoded pixel and TDC words are
accumulated only in the worker's partial statistics (which are never
byte-accounted), and every other word falls back to `process_packet`
with the DEFAULT `enable_accounting = true` argument. -/
def processDecoded (word chip_index : Nat) (chunk_meta : ChunkMetadata)
    (st : ProcStats) : ProcStats :=
  let full_type := (word >>> 56) &&& 0xFF
  if full_type = SPIDR_PACKET_ID ∨ full_type = TPX3_CONTROL ∨
      full_type = EXTRA_TIMESTAMP ∨ full_type = EXTRA_TIMESTAMP_MPX3 ∨
      full_type = GLOBAL_TIME_LOW ∨ full_type = GLOBAL_TIME_HIGH then
    process_packet word chip_index chunk_meta true st
  else
    let packet_type := (word >>> 60) &&& 0xF
    if packet_type = 0xa ∨ packet_type = 0xb then
      match decode_pixel_data word chip_index with
      | .ok _ => st
      | .error _ => process_packet word chip_index chunk_meta true st
    else if packet_type = 0x6 then
      match decode_tdc_data word with
      | .ok _ => st
      | .error _ => process_packet word chip_index chunk_meta true st
    else
      process_packet word chip_index chunk_meta true st

/-! ## Frame parser (`process_raw_data`, `part_006` lines 603-759) -/

/-- `StreamState` from `part_006` lines 44-61.  `data_words_seen` is
an observer field, not in the C++ struct: it counts the words that
take the in-chunk data path (the `chunk_words_remaining--` at line
671), which is what the chunk-length contract speaks about. -/
structure StreamState where
  in_chunk : Bool := false
  chunk_words_remaining : Nat := 0
  chip_index : Nat := 0
  current_chunk_id : Nat := 0
  local_chunk_count : Nat := 0
  pending_chunk_updates : Nat := 0
  chunk_meta : ChunkMetadata := {}
  extra_timestamps : List ExtraTimestamp := []
  saw_first_chunk_header : Bool := false
  mid_stream_flagged : Bool := false
  batch_buffer : List Nat := []
  data_words_seen : Nat := 0
deriving DecidableEq, Repr

/-- Which collaborators `process_raw_data` was given: a decode
dispatcher, a reorder buffer, and the accounting flag. -/
structure ParserConfig where
  hasDispatcher : Bool
  useReorder : Bool
  enable_accounting : Bool
deriving DecidableEq, Repr

/-- Parser state together with its collaborators' state. -/
structure PipelineState where
  state : StreamState
  proc : ProcStats
  rb : ReorderBuffer
deriving Repr

/-- Initial pipeline state (fresh `StreamState`, zero statistics, and
a reorder buffer constructed with the given window and
`chunk_aware = true` as in `main`). -/
def PipelineState.init (reorder_window : Nat) : PipelineState :=
  { state := {}, proc := {}, rb := ReorderBuffer.init reorder_window true }

/-- One decoded word on its way to the sink: `dispatcher->submit(...)`
when a dispatcher is present, else inline `process_packet` (the two
arms of `flushBatch` and of the reorder callback). The dispatcher's
effect on the aggregator is modelled synchronously; its byte-relevant
effects are additive so the order of worker execution does not change
the totals. -/
def decodePath (cfg : ParserConfig) (word chip_index : Nat) (chunk_meta : ChunkMetadata)
    (st : ProcStats) : ProcStats :=
  if cfg.hasDispatcher then processDecoded word chip_index chunk_meta st
  else process_packet word chip_index chunk_meta cfg.enable_accounting st

/-- `flushBatch` from `part_006` lines 589-600. -/
def flushBatch (cfg : ParserConfig) (ps : PipelineState) : PipelineState :=
  if ps.state.batch_buffer = [] then ps
  else
    let proc := ps.state.batch_buffer.foldl
      (fun st w => decodePath cfg w ps.state.chip_index ps.state.chunk_meta st) ps.proc
    { ps with proc := proc, state := { ps.state with batch_buffer := [] } }

/-- The chunk-header branch of the parser loop (`part_006` lines
615-657): flush the batch, account the header word, enter the chunk
with `chunk_words_remaining = chunk_size_bytes / 8`, pick up the chip
byte, advance the local chunk id (batched into the aggregator every
100 chunks), reset the reorder buffer and the chunk metadata. -/
def headerBranch (cfg : ParserConfig) (ps : PipelineState) (word : Nat) : PipelineState :=
  let ps := flushBatch cfg ps
  let proc := if cfg.enable_accounting then ps.proc.addPacketBytes 8 else ps.proc
  let s := ps.state
  let local_count := s.local_chunk_count + 1
  let pending := s.pending_chunk_updates + 1
  let procPending :=
    if pending ≥ 100 then
      ({ proc with total_chunks := proc.total_chunks + pending }, 0)
    else (proc, pending)
  let rb := if cfg.useReorder then ps.rb.resetForNewChunk local_count else ps.rb
  { state := { s with saw_first_chunk_header := true
                      in_chunk := true
                      chunk_words_remaining := ((word >>> 48) &&& 0xFFFF) / 8
                      chip_index := (word >>> 32) &&& 0xFF
                      local_chunk_count := local_count
                      current_chunk_id := local_count
                      pending_chunk_updates := procPending.2
                      chunk_meta := {}
                      extra_timestamps := [] }
    proc := procPending.1
    rb := rb }

/-- The outside-chunk branch (`part_006` lines 660-668). -/
def outsideBranch (cfg : ParserConfig) (ps : PipelineState) : PipelineState :=
  let marked :=
    if ps.state.saw_first_chunk_header = false ∧ ps.state.mid_stream_flagged = false then
      ({ ps.proc with started_mid_stream := true },
       { ps.state with mid_stream_flagged := true })
    else (ps.proc, ps.state)
  let proc := if cfg.enable_accounting then marked.1.addPacketBytes 8 else marked.1
  { ps with state := marked.2, proc := proc }

/-- The near-end extra-timestamp branch (`part_006` lines 679-699). -/
def extraTsBranch (cfg : ParserConfig) (ps : PipelineState) (word : Nat) : PipelineState :=
  let ps := flushBatch cfg ps
  let proc := if cfg.enable_accounting then ps.proc.addPacketBytes 8 else ps.proc
  let extras := ps.state.extra_timestamps ++ [decode_extra_timestamp word]
  let meta :=
    match extras with
    | [e0, e1, e2] =>
      { packet_gen_time_ns := e0.timestamp_ns
        min_timestamp_ns := e1.timestamp_ns
        max_timestamp_ns := e2.timestamp_ns
        has_extra_packets := true }
    | _ => ps.state.chunk_meta
  { ps with proc := proc
            state := { ps.state with extra_timestamps := extras, chunk_meta := meta } }

/-- The SPIDR-packet-id branch with reordering (`part_006` lines
700-723): words released by the reorder buffer flow to the decode path
with the CURRENT chip index and chunk metadata (the C++ lambda
captures `state` by reference). -/
def spidrReorderBranch (cfg : ParserConfig) (ps : PipelineState) (word : Nat) : PipelineState :=
  let ps := flushBatch cfg ps
  match decode_spidr_packet_id word with
  | some packet_count =>
    let r := ps.rb.processPacket word packet_count ps.state.current_chunk_id
    let proc := r.2.1.foldl
      (fun st p => decodePath cfg p.word ps.state.chip_index ps.state.chunk_meta st)
      ps.proc
    { ps with rb := r.1, proc := proc }
  | none =>
    { ps with proc := decodePath cfg word ps.state.chip_index ps.state.chunk_meta ps.proc }

/-- The fast batch path (`part_006` lines 724-733). -/
def batchWordBranch (cfg : ParserConfig) (ps : PipelineState) (word : Nat) : PipelineState :=
  let batch := ps.state.batch_buffer ++ [word]
  let ps := { ps with state := { ps.state with batch_buffer := batch } }
  if batch.length ≥ 128 then flushBatch cfg ps else ps

/-- The end-of-chunk check at the bottom of the loop body (`part_006`
lines 735-739). -/
def chunkEndCheck (cfg : ParserConfig) (ps : PipelineState) : PipelineState :=
  if ps.state.chunk_words_remaining = 0 then
    let ps := flushBatch cfg ps
    { ps with state := { ps.state with in_chunk := false } }
  else ps

/-- The in-chunk data path (`part_006` lines 671-739): decrement the
remaining-word counter, classify the word, and close the chunk when
the counter reaches zero. -/
def dataWordStep (cfg : ParserConfig) (ps : PipelineState) (word : Nat) : PipelineState :=
  let s := { ps.state with chunk_words_remaining := ps.state.chunk_words_remaining - 1
                           data_words_seen := ps.state.data_words_seen + 1 }
  let ps := { ps with state := s }
  let full_type := (word >>> 56) &&& 0xFF
  let is_near_end := s.chunk_words_remaining ≤ 3
  let ps :=
    if is_near_end ∧ (full_type = EXTRA_TIMESTAMP ∨ full_type = EXTRA_TIMESTAMP_MPX3) then
      extraTsBranch cfg ps word
    else if full_type = SPIDR_PACKET_ID ∧ cfg.useReorder then
      spidrReorderBranch cfg ps word
    else
      batchWordBranch cfg ps word
  chunkEndCheck cfg ps

/-- The loop body of `process_raw_data` (`part_006` lines 610-740) for
one word. -/
def processWord (cfg : ParserConfig) (ps : PipelineState) (word : Nat) : PipelineState :=
  if word &&& 0xFFFFFFFF = TPX3_MAGIC then
    headerBranch cfg ps word
  else if ps.state.in_chunk = false ∨ ps.state.chunk_words_remaining = 0 then
    outsideBranch cfg ps
  else
    dataWordStep cfg ps word

/-- The pending chunk-count flush after the loop (`part_006` lines
746-749). -/
def pendingChunkFlush (ps : PipelineState) : PipelineState :=
  if ps.state.pending_chunk_updates > 0 then
    { ps with proc := { ps.proc with
                total_chunks := ps.proc.total_chunks + ps.state.pending_chunk_updates }
              state := { ps.state with pending_chunk_updates := 0 } }
  else ps

/-- The copy of the reorder statistics into the aggregator after the
loop (`part_006` lines 751-758). -/
def copyReorderStats (cfg : ParserConfig) (ps : PipelineState) : PipelineState :=
  if cfg.useReorder then
    { ps with proc := { ps.proc with
        total_reordered_packets := ps.rb.packets_reordered
        reorder_max_distance := ps.rb.max_reorder_distance
        reorder_buffer_overflows := ps.rb.buffer_overflows
        reorder_packets_dropped_too_old := ps.rb.packets_dropped_too_old } }
  else ps

/-- `process_raw_data` over a whole (word-aligned) buffer: the loop,
the final batch flush, the pending chunk-count flush, and the copy of
the reorder statistics into the aggregator. -/
def process_raw_data (cfg : ParserConfig) (ps0 : PipelineState) (words : List Nat) :
    PipelineState :=
  copyReorderStats cfg (pendingChunkFlush (flushBatch cfg (words.foldl (processWord cfg) ps0)))

/-! ## Worker shard per-chip arrays (`DecodeDispatcher::PartialStats`,
`part_006` lines 158-171 and 400-434) -/

/-- The chip-index extraction performed at the chunk header
(`part_006` line 630): the full low byte of bits 47..32. -/
def chip_index_of_header (word : Nat) : Nat := (word >>> 32) &&& 0xFF

/-- A fresh per-chip counter array: `std::array<uint64_t, 4>`. -/
def chipCounters0 : List Nat := List.replicate 4 0

/-- `stats.chip_hits[chip]++` (and likewise `chip_tdc1`,
`chip_tdc1_min`, `chip_tdc1_max`) in `processDecoded`:
`std::array<uint64_t,4>::operator[]` performs no bounds check, so an
index outside `[0,4)` is undefined behaviour — modelled as `none`. -/
def bumpChipCounter (arr : List Nat) (chip : Nat) : Option (List Nat) :=
  if chip < arr.length then some (arr.set chip (arr.getD chip 0 + 1)) else none

/-- A chunk header word is recognised by the magic alone; the spec's
geometry invariants (`chunk_size_bytes % 8 == 0 && > 0`). -/
def isWellFormedHeader (word : Nat) : Prop :=
  word &&& 0xFFFFFFFF = TPX3_MAGIC ∧
  ((word >>> 48) &&& 0xFFFF) % 8 = 0 ∧ ((word >>> 48) &&& 0xFFFF) > 0

instance (word : Nat) : Decidable (isWellFormedHeader word) := by
  unfold isWellFormedHeader; infer_instance

end TcpRaw

/-! ## General bit-arithmetic lemmas -/

namespace TcpRaw

/-- Masking with `2^k - 1` is reduction modulo `2^k`. -/
theorem and_mask (a k : Nat) : a &&& (2 ^ k - 1) = a % 2 ^ k :=
  Nat.and_pow_two_sub_one_eq_mod a k

/-- Bitwise or of disjoint parts is addition: `2^k * c ||| b = 2^k * c + b`
whenever `b < 2^k`. -/
theorem lor_eq_add_of (k c b : Nat) (hb : b < 2 ^ k) : (2 ^ k * c) ||| b = 2 ^ k * c + b := by
  apply Nat.eq_of_testBit_eq
  intro j
  rw [Nat.testBit_lor, Nat.testBit_mul_pow_two_add c hb j, Nat.testBit_mul_pow_two]
  rcases Nat.lt_or_ge j k with h | h
  · simp [h, Nat.not_le_of_lt h]
  · have hbj : b.testBit j = false :=
      Nat.testBit_eq_false_of_lt (Nat.lt_of_lt_of_le hb (Nat.pow_le_pow_right (by norm_num) h))
    simp [h, Nat.not_lt_of_le h, hbj]

/-- The full packet-type byte decomposes into the top nibble and the
low command nibble. -/
theorem full_byte_of_nibble (w : Nat) :
    (w >>> 56) &&& 0xFF = 16 * ((w >>> 60) &&& 0xF) + (((w >>> 56) &&& 0xFF) % 16) := by
  have e1 : w >>> 60 = (w >>> 56) >>> 4 := by
    rw [Nat.shiftRight_add w 56 4]
  have e2 : (w >>> 56) &&& 0xFF = (w >>> 56) % 256 := and_mask (w >>> 56) 8
  have e3 : ((w >>> 56) >>> 4) &&& 0xF = ((w >>> 56) / 16) % 16 := by
    rw [Nat.shiftRight_eq_div_pow]
    exact and_mask _ 4
  rw [e1, e2, e3]
  omega

/-! ## Reorder buffer: structural lemmas -/

/-- `updateOldestAllowed` touches only `oldest_allowed_id`. -/
theorem updateOldestAllowed_buffer (rb : ReorderBuffer) :
    rb.updateOldestAllowed.buffer = rb.buffer := by
  unfold ReorderBuffer.updateOldestAllowed; split <;> rfl

/-- `updateOldestAllowed` preserves `next_expected_id`. -/
theorem updateOldestAllowed_next (rb : ReorderBuffer) :
    rb.updateOldestAllowed.next_expected_id = rb.next_expected_id := by
  unfold ReorderBuffer.updateOldestAllowed; split <;> rfl

/-- `updateOldestAllowed` preserves `max_buffer_size`. -/
theorem updateOldestAllowed_max (rb : ReorderBuffer) :
    rb.updateOldestAllowed.max_buffer_size = rb.max_buffer_size := by
  unfold ReorderBuffer.updateOldestAllowed; split <;> rfl

/-- Erasing never grows the association list. -/
theorem mapErase_length (l : List (Nat × OutOfOrderPacket)) (k : Nat) :
    (mapErase l k).length ≤ l.length := List.length_filter_le _ _

/-- Inserting grows the association list by at most one entry. -/
theorem mapInsert_length (l : List (Nat × OutOfOrderPacket)) (k : Nat) (v : OutOfOrderPacket) :
    (mapInsert l k v).length ≤ l.length + 1 := by
  unfold mapInsert; split
  · simp
  · simp

/-- The release loop only removes buffer entries, and never touches
the configured capacity. -/
theorem releaseConsecutive_size : ∀ (fuel : Nat) (rb : ReorderBuffer)
    (out : List OutOfOrderPacket),
    (releaseConsecutive fuel rb out).1.buffer.length ≤ rb.buffer.length ∧
    (releaseConsecutive fuel rb out).1.max_buffer_size = rb.max_buffer_size := by
  intro fuel
  induction fuel with
  | zero => intro rb out; exact ⟨Nat.le_refl _, rfl⟩
  | succ fuel ih =>
    intro rb out
    unfold releaseConsecutive
    rcases h : mapFind? rb.buffer rb.next_expected_id with _ | pkt
    · exact ⟨Nat.le_refl _, rfl⟩
    · have := ih ({ rb with buffer := mapErase rb.buffer rb.next_expected_id,
                            next_expected_id := rb.next_expected_id + 1 }).updateOldestAllowed
                 (out ++ [pkt])
      rw [updateOldestAllowed_buffer, updateOldestAllowed_max] at this
      refine ⟨Nat.le_trans this.1 ?_, this.2⟩
      exact mapErase_length rb.buffer rb.next_expected_id

/-- `tryBuffer` preserves the size bound: it only inserts when the
buffer is strictly below capacity. -/
theorem tryBuffer_size (rb1 : ReorderBuffer) (w id c : Nat) (ro : Bool)
    (h : rb1.buffer.length ≤ rb1.max_buffer_size) :
    (rb1.tryBuffer w id c ro).1.buffer.length ≤ (rb1.tryBuffer w id c ro).1.max_buffer_size := by
  unfold ReorderBuffer.tryBuffer
  split
  · exact h
  · rename_i hfull
    have hlt : rb1.buffer.length < rb1.max_buffer_size := Nat.lt_of_not_le hfull
    have h2 := releaseConsecutive_size
      ((mapInsert rb1.buffer id ⟨w, id, c⟩).length)
      { rb1 with buffer := mapInsert rb1.buffer id ⟨w, id, c⟩
                 packets_reordered := rb1.packets_reordered + 1 } []
    refine Nat.le_trans h2.1 ?_
    rw [h2.2]
    show (mapInsert rb1.buffer id ⟨w, id, c⟩).length ≤ rb1.max_buffer_size
    calc (mapInsert rb1.buffer id ⟨w, id, c⟩).length
        ≤ rb1.buffer.length + 1 := mapInsert_length _ _ _
      _ ≤ rb1.max_buffer_size := hlt

/-- `tryBuffer` preserves the configured capacity. -/
theorem tryBuffer_max (rb1 : ReorderBuffer) (w id c : Nat) (ro : Bool) :
    (rb1.tryBuffer w id c ro).1.max_buffer_size = rb1.max_buffer_size := by
  unfold ReorderBuffer.tryBuffer
  split
  · rfl
  · exact (releaseConsecutive_size _ _ _).2

/-- The fast path never touches the buffer. -/
theorem handleInOrder_size (rb : ReorderBuffer) (w id c : Nat)
    (h : rb.buffer.length ≤ rb.max_buffer_size) :
    (rb.handleInOrder w id c).1.buffer.length ≤ (rb.handleInOrder w id c).1.max_buffer_size := by
  unfold ReorderBuffer.handleInOrder
  split
  · exact h
  · show (({ rb with next_expected_id := rb.next_expected_id + 1 }).updateOldestAllowed).buffer.length ≤
        (({ rb with next_expected_id := rb.next_expected_id + 1 }).updateOldestAllowed).max_buffer_size
    rw [updateOldestAllowed_buffer, updateOldestAllowed_max]
    exact h

/-- The fast path preserves the configured capacity. -/
theorem handleInOrder_max (rb : ReorderBuffer) (w id c : Nat) :
    (rb.handleInOrder w id c).1.max_buffer_size = rb.max_buffer_size := by
  unfold ReorderBuffer.handleInOrder
  split
  · rfl
  · exact updateOldestAllowed_max _

/-- The ahead branch preserves the size bound. -/
theorem bufferAhead_size (rb : ReorderBuffer) (w id c : Nat)
    (h : rb.buffer.length ≤ rb.max_buffer_size) :
    (rb.bufferAhead w id c).1.buffer.length ≤ (rb.bufferAhead w id c).1.max_buffer_size := by
  simp only [ReorderBuffer.bufferAhead]
  split
  · exact tryBuffer_size _ _ _ _ _ h
  · exact tryBuffer_size _ _ _ _ _ h

/-- The ahead branch preserves the configured capacity. -/
theorem bufferAhead_max (rb : ReorderBuffer) (w id c : Nat) :
    (rb.bufferAhead w id c).1.max_buffer_size = rb.max_buffer_size := by
  simp only [ReorderBuffer.bufferAhead]
  split
  · exact tryBuffer_max _ _ _ _ _
  · exact tryBuffer_max _ _ _ _ _

/-- The late branch preserves the size bound. -/
theorem bufferLate_size (rb : ReorderBuffer) (w id c : Nat)
    (h : rb.buffer.length ≤ rb.max_buffer_size) :
    (rb.bufferLate w id c).1.buffer.length ≤ (rb.bufferLate w id c).1.max_buffer_size := by
  simp only [ReorderBuffer.bufferLate]
  split
  · exact tryBuffer_size _ _ _ _ _ h
  · exact tryBuffer_size _ _ _ _ _ h

/-- The late branch preserves the configured capacity. -/
theorem bufferLate_max (rb : ReorderBuffer) (w id c : Nat) :
    (rb.bufferLate w id c).1.max_buffer_size = rb.max_buffer_size := by
  simp only [ReorderBuffer.bufferLate]
  split
  · exact tryBuffer_max _ _ _ _ _
  · exact tryBuffer_max _ _ _ _ _

/-- The dispatch after the chunk boundary preserves the size bound. -/
theorem processAfterBoundary_size (rb : ReorderBuffer) (w id c : Nat)
    (h : rb.buffer.length ≤ rb.max_buffer_size) :
    (rb.processAfterBoundary w id c).1.buffer.length ≤
    (rb.processAfterBoundary w id c).1.max_buffer_size := by
  unfold ReorderBuffer.processAfterBoundary
  split
  · exact handleInOrder_size rb w id c h
  · split
    · exact h
    · split
      · exact bufferAhead_size rb w id c h
      · split
        · exact bufferLate_size rb w id c h
        · exact h

/-- The dispatch after the chunk boundary preserves the capacity. -/
theorem processAfterBoundary_max (rb : ReorderBuffer) (w id c : Nat) :
    (rb.processAfterBoundary w id c).1.max_buffer_size = rb.max_buffer_size := by
  unfold ReorderBuffer.processAfterBoundary
  split
  · exact handleInOrder_max rb w id c
  · split
    · rfl
    · split
      · exact bufferAhead_max rb w id c
      · split
        · exact bufferLate_max rb w id c
        · rfl

/-- `flush` preserves the configured capacity. -/
theorem flush_max (rb : ReorderBuffer) : rb.flush.1.max_buffer_size = rb.max_buffer_size := by
  unfold ReorderBuffer.flush
  split
  · rfl
  · rfl

/-- `processPacket` preserves the size bound. -/
theorem processPacket_size (rb : ReorderBuffer) (w id c : Nat)
    (h : rb.buffer.length ≤ rb.max_buffer_size) :
    (rb.processPacket w id c).1.buffer.length ≤ (rb.processPacket w id c).1.max_buffer_size := by
  simp only [ReorderBuffer.processPacket]
  split
  · exact processAfterBoundary_size _ w id c (Nat.zero_le _)
  · exact processAfterBoundary_size _ w id c h

/-- `processPacket` preserves the configured capacity. -/
theorem processPacket_max (rb : ReorderBuffer) (w id c : Nat) :
    (rb.processPacket w id c).1.max_buffer_size = rb.max_buffer_size := by
  simp only [ReorderBuffer.processPacket]
  split
  · rw [processAfterBoundary_max]
    show ({ rb with total_packets := rb.total_packets + 1 } :
        ReorderBuffer).flush.1.max_buffer_size = rb.max_buffer_size
    rw [flush_max]
  · rw [processAfterBoundary_max]

/-- Any single operation preserves the size bound. -/
theorem runRBOp_size (rb : ReorderBuffer) (op : RBOp)
    (h : rb.buffer.length ≤ rb.max_buffer_size) :
    (runRBOp rb op).1.buffer.length ≤ (runRBOp rb op).1.max_buffer_size := by
  cases op with
  | submit w id c => exact processPacket_size rb w id c h
  | flushOp =>
    show rb.flush.1.buffer.length ≤ rb.flush.1.max_buffer_size
    unfold ReorderBuffer.flush
    split
    · exact h
    · exact Nat.zero_le _
  | resetOp c => exact Nat.zero_le _

/-- Any single operation preserves the configured capacity. -/
theorem runRBOp_max (rb : ReorderBuffer) (op : RBOp) :
    (runRBOp rb op).1.max_buffer_size = rb.max_buffer_size := by
  cases op with
  | submit w id c => exact processPacket_max rb w id c
  | flushOp => exact flush_max rb
  | resetOp c => rfl

/-- Operation sequences preserve the size bound. -/
theorem runRBOps_size : ∀ (ops : List RBOp) (rb : ReorderBuffer),
    rb.buffer.length ≤ rb.max_buffer_size →
    (runRBOps rb ops).1.buffer.length ≤ (runRBOps rb ops).1.max_buffer_size := by
  intro ops
  induction ops with
  | nil => intro rb h; exact h
  | cons op ops ih =>
    intro rb h
    exact ih _ (runRBOp_size rb op h)

/-- Operation sequences preserve the configured capacity. -/
theorem runRBOps_max : ∀ (ops : List RBOp) (rb : ReorderBuffer),
    (runRBOps rb ops).1.max_buffer_size = rb.max_buffer_size := by
  intro ops
  induction ops with
  | nil => intro rb; rfl
  | cons op ops ih =>
    intro rb
    rw [show (runRBOps rb (op :: ops)).1 = (runRBOps (runRBOp rb op).1 ops).1 from rfl]
    rw [ih, runRBOp_max]

/-- Ids submitted in their arrival order, starting at the current
`next_expected_id`, always take the fast path: each is released
immediately and the buffer stays empty. -/
theorem inorder_release (m : Nat) : ∀ (k : Nat) (s : ReorderBuffer),
    s.buffer = [] → s.first_packet_seen = true → s.next_expected_id = k →
    s.current_chunk_id = 1 →
    ((runRBOps s ((List.range' k m).map (fun id => RBOp.submit id id 1))).2.map
      (fun p => p.packet_id)) = List.range' k m := by
  induction m with
  | zero => intro k s _ _ _ _; simp [runRBOps]
  | succ m ih =>
    intro k s hb hf hn hc
    rw [List.range'_succ]
    simp only [List.map_cons, runRBOps, runRBOp]
    simp only [ReorderBuffer.processPacket, ReorderBuffer.processAfterBoundary,
      ReorderBuffer.handleInOrder, ReorderBuffer.flush, ReorderBuffer.resetForNewChunk,
      ReorderBuffer.updateOldestAllowed, hb, hf, hn, hc]
    simp
    rw [ih (k + 1) _ (by split <;> rfl) (by split <;> rfl) (by split <;> rfl) (by split <;> rfl)]

/-- Submitting `0, 1, …, N-1` in order releases exactly that sequence:
the first submission establishes the base and every later one matches
`next_expected_id`. -/
theorem range_release (M N : Nat) :
    ((submitIds (ReorderBuffer.init M true) (List.range N)).2.map
      (fun p => p.packet_id)) = List.range N := by
  cases N with
  | zero => simp [submitIds, runRBOps]
  | succ n =>
    rw [List.range_eq_range', List.range'_succ]
    simp only [submitIds, List.map_cons, runRBOps, runRBOp]
    simp only [ReorderBuffer.processPacket, ReorderBuffer.processAfterBoundary,
      ReorderBuffer.handleInOrder, ReorderBuffer.flush, ReorderBuffer.resetForNewChunk,
      ReorderBuffer.updateOldestAllowed, ReorderBuffer.init]
    simp
    rw [inorder_release n 1 _ rfl rfl rfl rfl]

end TcpRaw

/-! ## Byte accounting (inline path) -/

namespace TcpRaw

/-- `addTdcEvent` never touches the byte counter. -/
theorem addTdcEvent_bytes (st : ProcStats) (tdc : TDCEvent) (chip : Nat) :
    (st.addTdcEvent tdc chip).total_bytes_accounted = st.total_bytes_accounted := by
  simp only [ProcStats.addTdcEvent]
  split <;> split <;> rfl

/-- With accounting enabled, every branch of `process_packet` accounts
exactly 8 bytes for the word. -/
theorem process_packet_bytes (w chip : Nat) (meta : ChunkMetadata) (st : ProcStats) :
    (process_packet w chip meta true st).total_bytes_accounted =
    st.total_bytes_accounted + 8 := by
  simp only [process_packet, if_true]
  split
  · rfl
  · split
    · rfl
    · split
      · rfl
      · split
        · rfl
        · split
          · rcases decode_pixel_data w chip with e | hit
            · simp [ProcStats.addPacketBytes]
            · simp [ProcStats.addPacketBytes, ProcStats.addHit]
          · split
            · rcases decode_tdc_data w with e | tdc
              · simp [ProcStats.addPacketBytes]
                split <;> rfl
              · simp [ProcStats.addPacketBytes, addTdcEvent_bytes]
            · split
              · rcases decode_spidr_control w with _ | c
                · simp [ProcStats.addPacketBytes]
                · simp [ProcStats.addPacketBytes]
              · simp [ProcStats.addPacketBytes]

/-- With no dispatcher, the decode path is the inline `process_packet`. -/
theorem decodePath_inline (w chip : Nat) (meta : ChunkMetadata) (st : ProcStats) :
    decodePath ⟨false, false, true⟩ w chip meta st = process_packet w chip meta true st := by
  unfold decodePath
  simp

/-- The inline decode path accounts exactly 8 bytes per word. -/
theorem decodePath_inline_bytes (w chip : Nat) (meta : ChunkMetadata) (st : ProcStats) :
    (decodePath ⟨false, false, true⟩ w chip meta st).total_bytes_accounted =
    st.total_bytes_accounted + 8 := by
  rw [decodePath_inline]
  exact process_packet_bytes w chip meta st

/-- Folding the inline decode path over a word list accounts 8 bytes
per word. -/
theorem foldl_decodePath_bytes (ws : List Nat) : ∀ (chip : Nat) (meta : ChunkMetadata)
    (st : ProcStats),
    (ws.foldl (fun st w => decodePath ⟨false, false, true⟩ w chip meta st) st).total_bytes_accounted =
    st.total_bytes_accounted + 8 * ws.length := by
  induction ws with
  | nil => intro chip meta st; simp
  | cons w ws ih =>
    intro chip meta st
    simp only [List.foldl_cons, List.length_cons]
    rw [ih, decodePath_inline_bytes]
    ring

/-- Flushing the batch moves the deferred accounting into the byte
counter: the sum `bytes + 8·|batch|` is invariant. -/
theorem flushBatch_inline_I (ps : PipelineState) :
    (flushBatch ⟨false, false, true⟩ ps).proc.total_bytes_accounted +
      8 * (flushBatch ⟨false, false, true⟩ ps).state.batch_buffer.length =
    ps.proc.total_bytes_accounted + 8 * ps.state.batch_buffer.length := by
  unfold flushBatch
  split
  · rfl
  · simp only [List.length_nil, Nat.mul_zero, Nat.add_zero]
    rw [foldl_decodePath_bytes]

/-- The batch is empty after any flush. -/
theorem flushBatch_batch_nil (cfg : ParserConfig) (ps : PipelineState) :
    (flushBatch cfg ps).state.batch_buffer = [] := by
  unfold flushBatch
  split
  · assumption
  · rfl

/-- The header branch adds one accounted word. -/
theorem headerBranch_I (ps : PipelineState) (w : Nat) :
    (headerBranch ⟨false, false, true⟩ ps w).proc.total_bytes_accounted +
      8 * (headerBranch ⟨false, false, true⟩ ps w).state.batch_buffer.length =
    ps.proc.total_bytes_accounted + 8 * ps.state.batch_buffer.length + 8 := by
  have h1 := flushBatch_inline_I ps
  have h2 := flushBatch_batch_nil ⟨false, false, true⟩ ps
  simp only [headerBranch]
  split <;> simp_all [ProcStats.addPacketBytes]

/-- The outside-chunk branch adds one accounted word. -/
theorem outsideBranch_I (ps : PipelineState) :
    (outsideBranch ⟨false, false, true⟩ ps).proc.total_bytes_accounted +
      8 * (outsideBranch ⟨false, false, true⟩ ps).state.batch_buffer.length =
    ps.proc.total_bytes_accounted + 8 * ps.state.batch_buffer.length + 8 := by
  unfold outsideBranch
  by_cases h : ps.state.saw_first_chunk_header = false ∧ ps.state.mid_stream_flagged = false
  · simp [h, ProcStats.addPacketBytes]
    omega
  · simp [h, ProcStats.addPacketBytes]
    omega

/-- The extra-timestamp branch adds one accounted word. -/
theorem extraTsBranch_I (ps : PipelineState) (w : Nat) :
    (extraTsBranch ⟨false, false, true⟩ ps w).proc.total_bytes_accounted +
      8 * (extraTsBranch ⟨false, false, true⟩ ps w).state.batch_buffer.length =
    ps.proc.total_bytes_accounted + 8 * ps.state.batch_buffer.length + 8 := by
  have h1 := flushBatch_inline_I ps
  have h2 := flushBatch_batch_nil ⟨false, false, true⟩ ps
  simp only [extraTsBranch]
  split <;> simp_all [ProcStats.addPacketBytes]

/-- The batch branch defers one accounted word into the batch. -/
theorem batchWordBranch_I (ps : PipelineState) (w : Nat) :
    (batchWordBranch ⟨false, false, true⟩ ps w).proc.total_bytes_accounted +
      8 * (batchWordBranch ⟨false, false, true⟩ ps w).state.batch_buffer.length =
    ps.proc.total_bytes_accounted + 8 * ps.state.batch_buffer.length + 8 := by
  simp only [batchWordBranch]
  split
  · have h1 := flushBatch_inline_I
      { ps with state := { ps.state with batch_buffer := ps.state.batch_buffer ++ [w] } }
    have h2 := flushBatch_batch_nil ⟨false, false, true⟩
      { ps with state := { ps.state with batch_buffer := ps.state.batch_buffer ++ [w] } }
    simp_all
    omega
  · simp
    omega

/-- The end-of-chunk flush preserves the accounting sum. -/
theorem chunkEndCheck_I (ps : PipelineState) :
    (chunkEndCheck ⟨false, false, true⟩ ps).proc.total_bytes_accounted +
      8 * (chunkEndCheck ⟨false, false, true⟩ ps).state.batch_buffer.length =
    ps.proc.total_bytes_accounted + 8 * ps.state.batch_buffer.length := by
  have h1 := flushBatch_inline_I ps
  have h2 := flushBatch_batch_nil ⟨false, false, true⟩ ps
  simp only [chunkEndCheck]
  split
  · simp_all
  · rfl

/-- The in-chunk data path adds one accounted word. -/
theorem dataWordStep_I (ps : PipelineState) (w : Nat) :
    (dataWordStep ⟨false, false, true⟩ ps w).proc.total_bytes_accounted +
      8 * (dataWordStep ⟨false, false, true⟩ ps w).state.batch_buffer.length =
    ps.proc.total_bytes_accounted + 8 * ps.state.batch_buffer.length + 8 := by
  simp only [dataWordStep]
  split
  · rw [chunkEndCheck_I, extraTsBranch_I]
  · split
    · rename_i hre
      simp at hre
    · rw [chunkEndCheck_I, batchWordBranch_I]

/-- Every parsed word adds exactly 8 to the accounting sum. -/
theorem processWord_I (ps : PipelineState) (w : Nat) :
    (processWord ⟨false, false, true⟩ ps w).proc.total_bytes_accounted +
      8 * (processWord ⟨false, false, true⟩ ps w).state.batch_buffer.length =
    ps.proc.total_bytes_accounted + 8 * ps.state.batch_buffer.length + 8 := by
  simp only [processWord]
  split
  · exact headerBranch_I ps w
  · split
    · exact outsideBranch_I ps
    · exact dataWordStep_I ps w

/-- Folding the parser over a word list adds 8 per word to the
accounting sum. -/
theorem foldl_processWord_I (ws : List Nat) : ∀ (ps : PipelineState),
    (ws.foldl (processWord ⟨false, false, true⟩) ps).proc.total_bytes_accounted +
      8 * (ws.foldl (processWord ⟨false, false, true⟩) ps).state.batch_buffer.length =
    ps.proc.total_bytes_accounted + 8 * ps.state.batch_buffer.length + 8 * ws.length := by
  induction ws with
  | nil => intro ps; simp
  | cons w ws ih =>
    intro ps
    simp only [List.foldl_cons, List.length_cons]
    rw [ih, processWord_I]
    ring

/-- The pending chunk-count flush does not touch the byte counter. -/
theorem pendingChunkFlush_bytes (ps : PipelineState) :
    (pendingChunkFlush ps).proc.total_bytes_accounted = ps.proc.total_bytes_accounted := by
  unfold pendingChunkFlush
  split <;> rfl

/-- Copying the reorder statistics does not touch the byte counter. -/
theorem copyReorderStats_bytes (cfg : ParserConfig) (ps : PipelineState) :
    (copyReorderStats cfg ps).proc.total_bytes_accounted = ps.proc.total_bytes_accounted := by
  unfold copyReorderStats
  split <;> rfl

end TcpRaw

/-! ## TDC decode lemmas -/

namespace TcpRaw

/-- Fine value 0 is coerced to 1 and the decode succeeds. -/
theorem decode_tdc_fine0 (w : Nat) (h : get_bits w 8 5 = 0) :
    decode_tdc_data w = .ok { type := get_bits w 59 56, trigger_count := get_bits w 55 44
                              timestamp_ns := (get_bits w 43 9 <<< 1) ||| ((1 - 1) / 6)
                              fine_timestamp := 1 } := by
  unfold decode_tdc_data
  rw [if_pos h]

/-- Fine values 1..12 decode successfully with the documented
timestamp formula. -/
theorem decode_tdc_inrange (w : Nat) (h1 : 1 ≤ get_bits w 8 5) (h2 : get_bits w 8 5 ≤ 12) :
    decode_tdc_data w = .ok { type := get_bits w 59 56, trigger_count := get_bits w 55 44
                              timestamp_ns := (get_bits w 43 9 <<< 1) ||| ((get_bits w 8 5 - 1) / 6)
                              fine_timestamp := get_bits w 8 5 } := by
  unfold decode_tdc_data
  rw [if_neg (by omega), if_neg (by omega)]

/-- Fine values above 12 fail with the fractional-out-of-range error. -/
theorem decode_tdc_gt12 (w : Nat) (h : get_bits w 8 5 > 12) :
    decode_tdc_data w = .error .fractionalOutOfRange := by
  unfold decode_tdc_data
  rw [if_neg (by omega), if_pos h]

/-- When a TDC word (top nibble 0x6) fails its fine-value check, the
inline packet handler counts one decode error, one fractional error,
and produces no TDC event. -/
theorem tdc_error_counters (w chip : Nat) (meta : ChunkMetadata) (st : ProcStats)
    (hnib : (w >>> 60) &&& 0xF = 0x6) (h : get_bits w 8 5 > 12) :
    (process_packet w chip meta true st).total_decode_errors = st.total_decode_errors + 1 ∧
    (process_packet w chip meta true st).total_fractional_errors = st.total_fractional_errors + 1 ∧
    (process_packet w chip meta true st).total_tdc_events = st.total_tdc_events := by
  have hb := full_byte_of_nibble w
  rw [hnib] at hb
  have hmod : ((w >>> 56) &&& 0xFF) % 16 < 16 := Nat.mod_lt _ (by norm_num)
  unfold process_packet
  rw [if_neg (by unfold SPIDR_PACKET_ID; omega), if_neg (by unfold TPX3_CONTROL; omega),
      if_neg (by unfold EXTRA_TIMESTAMP EXTRA_TIMESTAMP_MPX3; omega),
      if_neg (by unfold GLOBAL_TIME_LOW GLOBAL_TIME_HIGH; omega),
      if_neg (by rw [hnib]; omega), if_pos (by rw [hnib])]
  rw [decode_tdc_gt12 w h]
  simp [ProcStats.addPacketBytes]

/-! ## SPIDR control decode lemmas -/

/-- `decode_spidr_control` succeeds exactly on nibble `0x5`, a top
byte other than `0x50`, and a command in `{0xF, 0xA, 0xC}` (the top
byte being `0x50` is the same as the command nibble being zero, which
the command check already excludes). -/
theorem spidr_control_success_iff (w : Nat) :
    (decode_spidr_control w).isSome ↔
      (w >>> 60 = 0x5 ∧ w >>> 56 ≠ 0x50 ∧
       (get_bits w 59 56 = 0xF ∨ get_bits w 59 56 = 0xA ∨ get_bits w 59 56 = 0xC)) := by
  have hcmd : get_bits w 59 56 = (w >>> 56) % 16 := by
    show (w >>> 56) &&& 15 = (w >>> 56) % 16
    exact and_mask (w >>> 56) 4
  have hbyte : w >>> 56 = 16 * (w >>> 60) + (w >>> 56) % 16 := by
    have e1 : w >>> 60 = (w >>> 56) >>> 4 := by rw [Nat.shiftRight_add w 56 4]
    rw [e1, Nat.shiftRight_eq_div_pow]
    omega
  simp only [decode_spidr_control]
  by_cases h5 : w >>> 60 = 0x5
  · rw [if_neg (by simp [h5])]
    split
    · rename_i hin
      simp only [Option.isSome_some, true_iff]
      unfold SPIDR_SHUTTER_OPEN SPIDR_SHUTTER_CLOSE SPIDR_HEARTBEAT at hin
      refine ⟨h5, ?_, by omega⟩
      rw [hcmd] at hin
      omega
    · rename_i hout
      simp only [Option.isSome_none, Bool.false_eq_true, false_iff]
      intro hc
      apply hout
      unfold SPIDR_SHUTTER_OPEN SPIDR_SHUTTER_CLOSE SPIDR_HEARTBEAT
      omega
  · rw [if_pos (by simpa using h5)]
    simp [h5]

/-- On success the stored timestamp is `25 * bits[45..12]`. -/
theorem spidr_control_value (w : Nat) (ctrl : SpidrControl)
    (h : decode_spidr_control w = some ctrl) :
    ctrl.timestamp_ns = get_bits w 45 12 * 25 := by
  simp only [decode_spidr_control] at h
  split at h
  · exact absurd h (by simp)
  · split at h
    · cases h
      rfl
    · exact absurd h (by simp)

end TcpRaw

/-! ## Claim theorems -/

namespace TcpRaw

/-- C1: the spec states that after a header carrying
`chunk_size_bytes = S` the parser treats exactly `S/8 - 1` subsequent
words as chunk data before declaring the chunk ended.  Evaluating the
parser at the failing input — a header with `S = 16` (so `S/8 - 1 = 1`
data word on the wire) followed by two non-header words — shows the
code consumes BOTH words on the in-chunk data path (the counter starts
at `S/8` and one word is consumed per decrement), declaring the chunk
ended only after the second: an off-by-one against the code's own
comment and the spec. -/
theorem claim_C1_chunk_length_offbyone :
    ((0x0010000133585054 : Nat) >>> 48) &&& 0xFFFF = 16 ∧
    (process_raw_data ⟨false, false, true⟩ (PipelineState.init 1000)
        [0x0010000133585054, 0xB000000000000000]).state.in_chunk = true ∧
    (process_raw_data ⟨false, false, true⟩ (PipelineState.init 1000)
        [0x0010000133585054, 0xB000000000000000]).state.chunk_words_remaining = 1 ∧
    (process_raw_data ⟨false, false, true⟩ (PipelineState.init 1000)
        [0x0010000133585054, 0xB000000000000000, 0xB000000000000000]).state.data_words_seen = 2 ∧
    (process_raw_data ⟨false, false, true⟩ (PipelineState.init 1000)
        [0x0010000133585054, 0xB000000000000000, 0xB000000000000000]).state.in_chunk = false ∧
    (2 : Nat) ≠ 16 / 8 - 1 := by
  decide

/-- C2 counterexample: submitting ids `[2, 0, 1, 3]` with
`max_size = 4` does NOT release `0, 1, 2, 3` — the first id (2) is
released immediately because it establishes the base, 0 and 1 are
buffered as late arrivals, and only 3 matches `next_expected_id`; the
callback sequence is `[2, 3]` (with `max_reorder_distance = 2`). -/
theorem claim_C2_counterexample :
    ((submitIds (ReorderBuffer.init 4 true) [2, 0, 1, 3]).2.map
        (fun p => p.packet_id) = [2, 3]) ∧
    ((submitIds (ReorderBuffer.init 4 true) [2, 0, 1, 3]).2.map
        (fun p => p.packet_id) ≠ [0, 1, 2, 3]) ∧
    ((submitIds (ReorderBuffer.init 4 true) [2, 0, 1, 3]).1.max_reorder_distance = 2) := by
  decide

/-- C2 amended: when the ids of `[0..N)` are submitted in increasing
order (in one chunk, any `max_size ≥ N`), the callback sequence is
exactly `0, 1, …, N-1`; in general the first submitted id establishes
the base, so for `[2, 0, 1, 3]` with `max_size = 4` the callbacks are
`[2, 3]` and ids 0 and 1 remain in the buffer (until a flush), with
`max_reorder_distance = 2`. -/
theorem claim_C2_amended :
    (∀ (M N : Nat), N ≤ M →
      ((submitIds (ReorderBuffer.init M true) (List.range N)).2.map
        (fun p => p.packet_id)) = List.range N) ∧
    ((submitIds (ReorderBuffer.init 4 true) [2, 0, 1, 3]).1.buffer.map
        (fun e => e.1) = [0, 1]) := by
  constructor
  · intro M N _
    exact range_release M N
  · decide

/-- C2 witness: the amended theorem applied at `max_size = 4`,
`N = 3`. -/
theorem claim_C2_witness :
    ((submitIds (ReorderBuffer.init 4 true) (List.range 3)).2.map
      (fun p => p.packet_id)) = List.range 3 :=
  claim_C2_amended.1 4 3 (by norm_num)

/-- C3: the worker's fixed 4-entry per-chip arrays are indexed by the
chip byte the parser extracts from the chunk header
(`(word >> 32) & 0xFF`, a value in `[0, 256)`), with no bounds check:
the access is in bounds exactly when that byte is below 4, and a
well-formed header can carry any larger byte (witness: chip byte 4),
making the access out of range. -/
theorem claim_C3_chip_index_bounds :
    (∀ w : Nat, (bumpChipCounter chipCounters0 (chip_index_of_header w)).isSome ↔
        chip_index_of_header w < 4) ∧
    (∀ w : Nat, chip_index_of_header w < 256) ∧
    (∀ (cfg : ParserConfig) (ps : PipelineState) (w : Nat),
        (headerBranch cfg ps w).state.chip_index = chip_index_of_header w) ∧
    (∃ w : Nat, isWellFormedHeader w ∧
        (bumpChipCounter chipCounters0 (chip_index_of_header w)).isNone) := by
  refine ⟨?_, ?_, ?_, ?_⟩
  · intro w
    unfold bumpChipCounter chipCounters0
    split
    · simp_all
    · simp_all
  · intro w
    show (w >>> 32) &&& 0xFF < 256
    have h := and_mask (w >>> 32) 8
    norm_num at h
    rw [h]
    exact Nat.mod_lt _ (by norm_num)
  · intro cfg ps w
    rfl
  · exact ⟨0x0010000433585054, by decide, by decide⟩

/-- C4: the timestamp-extension identity
`extend_timestamp(x & mask, min, n) = min + ((x - min) & mask)` holds
for every 64-bit `x` and `min` and every width `0 < n < 64`, all
arithmetic wrapping modulo 2^64; and the concrete wraparound vector
`extend_timestamp(0x10, 0x3FFFFF00, 30) = 0x40000010`. -/
theorem claim_C4_extend_timestamp :
    (∀ (x m n : Nat), 0 < n → n < 64 → x < U64 → m < U64 →
      extend_timestamp (x &&& (2 ^ n - 1)) m n = add64 m ((sub64 x m) &&& (2 ^ n - 1))) ∧
    extend_timestamp 0x00000010 0x3FFFFF00 30 = 0x40000010 := by
  constructor
  · intro x m n hn0 hn hx hm
    have hpow : (2:Nat) ^ n < 2 ^ 64 := Nat.pow_lt_pow_right (by norm_num) hn
    have h1 : 1 ≤ (2:Nat) ^ n := Nat.one_le_two_pow
    have hdvd : (2:Nat) ^ n ∣ 2 ^ 64 := pow_dvd_pow 2 (le_of_lt hn)
    have hshift : (1 <<< n : Nat) = 2 ^ n := by rw [Nat.shiftLeft_eq]; ring
    have hmask : sub64 ((1 <<< n) % U64) 1 = 2 ^ n - 1 := by
      rw [hshift]
      unfold sub64 U64
      omega
    unfold U64 at hx hm
    have hkey : sub64 (x % 2 ^ n) m % 2 ^ n = sub64 x m % 2 ^ n := by
      unfold sub64 U64
      rw [Nat.mod_mod_of_dvd _ hdvd, Nat.mod_mod_of_dvd _ hdvd]
      rw [Nat.mod_eq_of_lt hx, Nat.mod_eq_of_lt hm]
      rw [Nat.mod_eq_of_lt (show x % 2 ^ n < 2 ^ 64 by omega)]
      have e1 : x % 2 ^ n + 2 ^ 64 - m = x % 2 ^ n + (2 ^ 64 - m) := by omega
      have e2 : x + 2 ^ 64 - m = x + (2 ^ 64 - m) := by omega
      rw [e1, e2, Nat.mod_add_mod]
    unfold extend_timestamp
    rw [hmask, and_mask, and_mask, and_mask, hkey]
  · decide

/-- C4 witness: the identity applied at `x = 5`, `min = 7`, `n = 30`. -/
theorem claim_C4_witness :
    extend_timestamp (5 &&& (2 ^ 30 - 1)) 7 30 = add64 7 ((sub64 5 7) &&& (2 ^ 30 - 1)) :=
  claim_C4_extend_timestamp.1 5 7 30 (by norm_num) (by norm_num)
    (by unfold U64; norm_num) (by unfold U64; norm_num)

/-- C5: for a word with top nibble 0x6, the TDC decoder treats fine
value 0 as 1 and succeeds; succeeds for fine 1..12 with
`timestamp = (coarse << 1) | ((fine-1)/6)`; and for fine above 12
fails with the fractional-out-of-range error, in which case the packet
handler counts one decode error and one fractional error and produces
no TDC event. -/
theorem claim_C5_tdc_error_handling (w : Nat) (_hw : w < U64)
    (hnib : (w >>> 60) &&& 0xF = 0x6) :
    (get_bits w 8 5 = 0 →
      decode_tdc_data w = .ok { type := get_bits w 59 56, trigger_count := get_bits w 55 44
                                timestamp_ns := (get_bits w 43 9 <<< 1) ||| ((1 - 1) / 6)
                                fine_timestamp := 1 }) ∧
    (1 ≤ get_bits w 8 5 → get_bits w 8 5 ≤ 12 →
      decode_tdc_data w = .ok { type := get_bits w 59 56, trigger_count := get_bits w 55 44
                                timestamp_ns := (get_bits w 43 9 <<< 1) |||
                                  ((get_bits w 8 5 - 1) / 6)
                                fine_timestamp := get_bits w 8 5 }) ∧
    (12 < get_bits w 8 5 →
      decode_tdc_data w = .error .fractionalOutOfRange ∧
      ∀ (chip : Nat) (meta : ChunkMetadata) (st : ProcStats),
        (process_packet w chip meta true st).total_decode_errors = st.total_decode_errors + 1 ∧
        (process_packet w chip meta true st).total_fractional_errors =
          st.total_fractional_errors + 1 ∧
        (process_packet w chip meta true st).total_tdc_events = st.total_tdc_events) :=
  ⟨decode_tdc_fine0 w,
   decode_tdc_inrange w,
   fun h => ⟨decode_tdc_gt12 w h,
             fun chip meta st => tdc_error_counters w chip meta st hnib h⟩⟩

/-- C5 witness: scenario B's word (fine = 5) decodes successfully, and
a word with fine = 13 fails and is counted as a decode error plus a
fractional error with no TDC event. -/
theorem claim_C5_witness :
    decode_tdc_data 0x6F000000000000A0 =
      .ok { type := get_bits 0x6F000000000000A0 59 56
            trigger_count := get_bits 0x6F000000000000A0 55 44
            timestamp_ns := (get_bits 0x6F000000000000A0 43 9 <<< 1) |||
              ((get_bits 0x6F000000000000A0 8 5 - 1) / 6)
            fine_timestamp := get_bits 0x6F000000000000A0 8 5 } ∧
    decode_tdc_data 0x6F000000000001A0 = .error .fractionalOutOfRange ∧
    (process_packet 0x6F000000000001A0 0 {} true {}).total_decode_errors =
      ({} : ProcStats).total_decode_errors + 1 :=
  ⟨(claim_C5_tdc_error_handling 0x6F000000000000A0 (by decide) (by decide)).2.1
      (by decide) (by decide),
   ((claim_C5_tdc_error_handling 0x6F000000000001A0 (by decide) (by decide)).2.2
      (by decide)).1,
   (((claim_C5_tdc_error_handling 0x6F000000000001A0 (by decide) (by decide)).2.2
      (by decide)).2 0 {} {}).1⟩

/-- C6: a word accepted into the reorder buffer CAN be silently
discarded: the parser's chunk-header reset calls `resetForNewChunk`,
which clears the buffer without invoking the callback.  Trace: chunk
header, SPIDR id 0 (released immediately), SPIDR id 2 (accepted and
buffered, `packets_reordered = 1`), then a new chunk header — after it
the buffer is empty, and the byte accounting shows only 3 of the 4
words ever reached a handler (24 bytes, not 32): the id-2 word was
dropped without any callback, contradicting the claim and the
function's own comment. -/
theorem claim_C6_reset_discard :
    ((process_raw_data ⟨false, true, true⟩ (PipelineState.init 1000)
        [0x0020000033585054, 0x5000000000000000, 0x5000000000000002]).rb.buffer.map
          (fun e => e.1) = [2]) ∧
    ((process_raw_data ⟨false, true, true⟩ (PipelineState.init 1000)
        [0x0020000033585054, 0x5000000000000000, 0x5000000000000002]).rb.packets_reordered
          = 1) ∧
    ((process_raw_data ⟨false, true, true⟩ (PipelineState.init 1000)
        [0x0020000033585054, 0x5000000000000000, 0x5000000000000002,
         0x0020000033585054]).rb.buffer = []) ∧
    ((process_raw_data ⟨false, true, true⟩ (PipelineState.init 1000)
        [0x0020000033585054, 0x5000000000000000, 0x5000000000000002,
         0x0020000033585054]).proc.total_bytes_accounted = 24) ∧
    (24 : Nat) ≠ 8 * 4 := by
  decide

/-- C7 counterexample: with a dispatcher present, a successfully
decoded pixel word is never byte-accounted — a chunk header plus one
pixel word yields `total_bytes_accounted = 8`, not `8 * 2`. -/
theorem claim_C7_counterexample :
    (process_raw_data ⟨true, false, true⟩ (PipelineState.init 1000)
        [0x0010000133585054, 0xB000000000000000]).proc.total_bytes_accounted = 8 ∧
    (8 : Nat) ≠ 8 * 2 := by
  decide

/-- C7 amended: on the inline path — no dispatcher and no reorder
buffer — with accounting enabled, after `process_raw_data` consumes
any sequence of 8-byte words, `total_bytes_accounted` equals 8 times
the number of words seen (with a dispatcher, decoded pixel/TDC words
are not byte-accounted; with a reorder buffer, dropped or
still-buffered words are not byte-accounted). -/
theorem claim_C7_amended (words : List Nat) (window : Nat) :
    (process_raw_data ⟨false, false, true⟩
      (PipelineState.init window) words).proc.total_bytes_accounted = 8 * words.length := by
  have h1 := foldl_processWord_I words (PipelineState.init window)
  have h2 := flushBatch_inline_I
    (words.foldl (processWord ⟨false, false, true⟩) (PipelineState.init window))
  have h3 := flushBatch_batch_nil ⟨false, false, true⟩
    (words.foldl (processWord ⟨false, false, true⟩) (PipelineState.init window))
  have hb : (PipelineState.init window).proc.total_bytes_accounted = 0 := rfl
  have hl : (PipelineState.init window).state.batch_buffer = [] := rfl
  rw [hb, hl] at h1
  rw [h3] at h2
  simp only [process_raw_data]
  rw [copyReorderStats_bytes, pendingChunkFlush_bytes]
  simp at h1 h2
  omega

/-- C8: for every 16-bit pixel address, `pixaddr_to_xy` yields
coordinates in `[0, 256)` and the spec's inverse mapping
reconstructs the address. -/
theorem claim_C8_pixaddr_roundtrip (pa : Nat) (hpa : pa < 2 ^ 16) :
    (pixaddr_to_xy pa).1 < 256 ∧ (pixaddr_to_xy pa).2 < 256 ∧
    xy_to_pixaddr (pixaddr_to_xy pa).1 (pixaddr_to_xy pa).2 = pa := by
  have h127 : ∀ a : Nat, a &&& 127 = a % 128 := fun a => and_mask a 7
  have h63 : ∀ a : Nat, a &&& 63 = a % 64 := fun a => and_mask a 6
  have h7 : ∀ a : Nat, a &&& 7 = a % 8 := fun a => and_mask a 3
  have h3 : ∀ a : Nat, a &&& 3 = a % 4 := fun a => and_mask a 2
  have h1 : ∀ a : Nat, a &&& 1 = a % 2 := fun a => and_mask a 1
  have hs9 : ∀ a : Nat, a >>> 9 = a / 512 := fun a => Nat.shiftRight_eq_div_pow a 9
  have hs3 : ∀ a : Nat, a >>> 3 = a / 8 := fun a => Nat.shiftRight_eq_div_pow a 3
  simp only [pixaddr_to_xy, xy_to_pixaddr, h127, h63, h7, h3, h1, hs9, hs3]
  set d := pa / 512 % 128 with hd
  set s := pa / 8 % 64 with hs
  set p := pa % 8 with hp
  have hdlt : d < 128 := Nat.mod_lt _ (by norm_num)
  have hslt : s < 64 := Nat.mod_lt _ (by norm_num)
  have hplt : p < 8 := Nat.mod_lt _ (by norm_num)
  set b : Nat := if p ≥ 4 then 1 else 0 with hb
  have hble : b ≤ 1 := by rw [hb]; split <;> norm_num
  have hbval : b = p / 4 := by rw [hb]; split <;> omega
  refine ⟨by omega, by omega, ?_⟩
  set x := d * 2 + b with hx
  set y := s * 4 + p % 4 with hy
  have hxd : x / 2 = d := by omega
  have hx2 : x % 2 = b := by omega
  have hyd : y / 4 = s := by omega
  have hy4 : y % 4 = p % 4 := by omega
  rw [hxd, hx2, hyd, hy4]
  have e1 : (d <<< 9 : Nat) = 2 ^ 9 * d := by rw [Nat.shiftLeft_eq]; ring
  have e2 : (s <<< 3 : Nat) = 2 ^ 3 * s := by rw [Nat.shiftLeft_eq]; ring
  rw [e1, e2]
  have inner : (2 ^ 9 * d) ||| (2 ^ 3 * s) = 2 ^ 9 * d + 2 ^ 3 * s := by
    have hlt : (2 ^ 3 * s : Nat) < 2 ^ 9 := by norm_num; omega
    exact lor_eq_add_of 9 d (2 ^ 3 * s) hlt
  rw [inner]
  have outer : (2 ^ 9 * d + 2 ^ 3 * s) ||| (4 * b + p % 4) =
      2 ^ 9 * d + 2 ^ 3 * s + (4 * b + p % 4) := by
    have hrepr : (2 ^ 9 * d + 2 ^ 3 * s : Nat) = 2 ^ 3 * (2 ^ 6 * d + s) := by ring
    have hc : 4 * b + p % 4 < 2 ^ 3 := by omega
    rw [hrepr]
    exact lor_eq_add_of 3 (2 ^ 6 * d + s) _ hc
  rw [outer]
  omega

/-- C8 witness: the roundtrip at pixel address 0x1234. -/
theorem claim_C8_witness :
    (pixaddr_to_xy 0x1234).1 < 256 ∧ (pixaddr_to_xy 0x1234).2 < 256 ∧
    xy_to_pixaddr (pixaddr_to_xy 0x1234).1 (pixaddr_to_xy 0x1234).2 = 0x1234 :=
  claim_C8_pixaddr_roundtrip 0x1234 (by norm_num)

/-- C9 counterexample: the word `0x5F00000000001000` (nibble 0x5,
command 0xF, `bits[45..12] = 1`) decodes successfully but the stored
timestamp is 25, not `bits[45..12] = 1`: the decoder multiplies the
34-bit 25-ns tick count by 25. -/
theorem claim_C9_counterexample :
    decode_spidr_control 0x5F00000000001000 =
      some { command := 0xF, timestamp_ns := 25 } ∧
    get_bits 0x5F00000000001000 45 12 = 1 ∧
    (25 : Nat) ≠ 1 := by
  decide

/-- C9 amended: `decode_spidr_control` succeeds exactly when the top
nibble is 0x5, the top byte is not 0x50, and the command is one of
`{0xF, 0xA, 0xC}`; on success the returned timestamp equals
`25 * bits[45..12]` (the 25-ns tick count converted to nanoseconds). -/
theorem claim_C9_amended (w : Nat) (_hw : w < U64) :
    ((decode_spidr_control w).isSome ↔
      (w >>> 60 = 0x5 ∧ w >>> 56 ≠ 0x50 ∧
       (get_bits w 59 56 = 0xF ∨ get_bits w 59 56 = 0xA ∨ get_bits w 59 56 = 0xC))) ∧
    (∀ ctrl : SpidrControl, decode_spidr_control w = some ctrl →
      ctrl.timestamp_ns = get_bits w 45 12 * 25) :=
  ⟨spidr_control_success_iff w, fun ctrl h => spidr_control_value w ctrl h⟩

/-- C9 witness: the success characterisation at the concrete word
`0x5F00000000001000`. -/
theorem claim_C9_witness :
    (decode_spidr_control 0x5F00000000001000).isSome ↔
      ((0x5F00000000001000 : Nat) >>> 60 = 0x5 ∧
       (0x5F00000000001000 : Nat) >>> 56 ≠ 0x50 ∧
       (get_bits 0x5F00000000001000 59 56 = 0xF ∨
        get_bits 0x5F00000000001000 59 56 = 0xA ∨
        get_bits 0x5F00000000001000 59 56 = 0xC)) :=
  (claim_C9_amended 0x5F00000000001000 (by decide)).1

/-- C10: for every sequence of `processPacket`, `flush` and
`resetForNewChunk` calls starting from a fresh buffer, the internal
map never holds more than `max_size` entries (packets are only
inserted when the current size is strictly below `max_size`). -/
theorem claim_C10_bounded_buffer (max_size : Nat) (aware : Bool) (ops : List RBOp) :
    (runRBOps (ReorderBuffer.init max_size aware) ops).1.buffer.length ≤ max_size := by
  have h := runRBOps_size ops (ReorderBuffer.init max_size aware) (Nat.zero_le _)
  rwa [runRBOps_max] at h

end TcpRaw

/-! ## Sanity evaluations (spec scenarios) -/

namespace TcpRaw

/-- Sanity: the spec's wraparound vector F. -/
example : extend_timestamp 0x00000010 0x3FFFFF00 30 = 0x40000010 := by decide

/-- Sanity: in-order ids release in order. -/
example : ((submitIds (ReorderBuffer.init 4 true) [0, 1, 2, 3]).2.map
    (fun p => p.packet_id)) = [0, 1, 2, 3] := by decide

/-- Sanity: scenario E trace — too-old drop. -/
example : ((submitIds (ReorderBuffer.init 2 true) [0, 1, 2, 3, 4, 0]).2.map
    (fun p => p.packet_id)) = [0, 1, 2, 3, 4] ∧
    (submitIds (ReorderBuffer.init 2 true) [0, 1, 2, 3, 4, 0]).1.packets_dropped_too_old = 1 := by
  decide

/-- Sanity: scenario A — one chunk, one standard pixel word. -/
example :
    (process_raw_data ⟨false, false, true⟩ (PipelineState.init 1000)
      [0x0010000133585054, 0xB000000000000000]).proc.total_hits = 1 ∧
    (process_raw_data ⟨false, false, true⟩ (PipelineState.init 1000)
      [0x0010000133585054, 0xB000000000000000]).proc.total_chunks = 1 := by decide

/-- Sanity: scenario B — one TDC1_RISE word with fine = 5. -/
example :
    (process_raw_data ⟨false, false, true⟩ (PipelineState.init 1000)
      [0x0010000033585054, 0x6F000000000000A0]).proc.total_tdc1_events = 1 := by decide

end TcpRaw
